import Mathlib

/-!
Shallow embedding of the round engine of `src/components/PredictionGame.tsx`:
the data model (game phases, predictions, round results, the aggregate game
state), the prediction catalog, the win evaluator, the round-lifecycle state
transitions (countdown tick, round end, new round, duration change) and the
user intents (add prediction, place predictions, clear predictions), together
with theorems settling the specification claims about them.

Conventions: TS `number` fields holding integral values are embedded as `Int`
(times, durations, timestamps) or `Nat` (the result digit 0–9 and exact-number
bets, which are non-negative at every call site); payout multipliers are `Rat`;
fallible intents return `Except BetError GameState` where an error means the
intent was rejected and the state left untouched, exactly as the source
returns early before calling `setGameState`.
-/

/-- GamePhase: `"betting" | "resolving" | "showing-result"`. -/
inductive GamePhase where
  | betting
  | resolving
  | showingResult
deriving DecidableEq, Repr

/-- Result colors: `"red" | "green" | "blue"`. -/
inductive GameColor where
  | red
  | green
  | blue
deriving DecidableEq, Repr

/-- PredictionType: `"big" | "small" | "red" | "green" | "blue" | number`. -/
inductive PredictionType where
  | big
  | small
  | red
  | green
  | blue
  | num (n : Nat)
deriving DecidableEq, Repr

/-- Prediction category: `"size" | "color" | "number"`. -/
inductive Category where
  | size
  | color
  | number
deriving DecidableEq, Repr

/-- The `Prediction` interface: `{ type, category, multiplier }`. -/
structure Prediction where
  type : PredictionType
  category : Category
  multiplier : Rat
deriving DecidableEq, Repr

/-- The `RoundResult` interface: `{ number, color, timestamp, duration }`. -/
structure RoundResult where
  number : Nat
  color : GameColor
  timestamp : Int
  duration : Int
deriving DecidableEq, Repr

/-- The `currentRound` sub-record of `GameState`. -/
structure CurrentRound where
  duration : Int
  timeRemaining : Int
  phase : GamePhase
deriving DecidableEq, Repr

/-- The core fields of the `GameState` aggregate (the cosmetic fields
`settings`, `mode` and `bettingActivity` are presentation-only and omitted). -/
structure GameState where
  currentRound : CurrentRound
  activePredictions : List Prediction
  lockedPredictions : List Prediction
  lastResult : Option RoundResult
  history : List RoundResult
  selectedDuration : Int
deriving DecidableEq, Repr

/-- The initial state passed to `useState` (duration 10, ten seconds on the
clock, betting phase, no predictions, empty history). -/
def initialState : GameState :=
  { currentRound := { duration := 10, timeRemaining := 10, phase := .betting }
    activePredictions := []
    lockedPredictions := []
    lastResult := none
    history := []
    selectedDuration := 10 }

/-- The allowed round durations, the TS type `RoundDuration = 10 | 15 | 20`. -/
def allowedDuration (d : Int) : Prop := d = 10 ∨ d = 15 ∨ d = 20

instance (d : Int) : Decidable (allowedDuration d) := by
  unfold allowedDuration
  infer_instance

/-- Category derivation of `addPrediction` (lines 308–311): big/small are size
bets, the colors are color bets, everything numeric is a number bet. -/
def kindCategory : PredictionType → Category
  | .big | .small => .size
  | .red | .green | .blue => .color
  | .num _ => .number

/-- Multiplier lookup of `addPrediction` line 313 against the
`PREDICTION_MULTIPLIERS` table: 1.9 for big/small, 2.8 for each color, 9.0 for
an exact number. -/
def kindMultiplier : PredictionType → Rat
  | .big => 1.9
  | .small => 1.9
  | .red => 2.8
  | .green => 2.8
  | .blue => 2.8
  | .num _ => 9.0

/-- Does `prediction.type` (a color kind) equal `result.color`? This is the
`prediction.type === result.color` comparison of `checkWinnings`. -/
def typeMatchesColor : PredictionType → GameColor → Bool
  | .red, .red => true
  | .green, .green => true
  | .blue, .blue => true
  | _, _ => false

/-- The per-prediction win test of `checkWinnings` (lines 170–179): for a size
bet, big wins on number ≥ 5 and small on number < 5; a color bet wins when its
color equals the result color; a number bet wins when it equals the result
number. -/
def predictionWins (result : RoundResult) (p : Prediction) : Bool :=
  match p.category with
  | .size =>
      (p.type == .big && decide (result.number ≥ 5)) ||
      (p.type == .small && decide (result.number < 5))
  | .color => typeMatchesColor p.type result.color
  | .number => p.type == .num result.number

/-- The `checkWinnings` evaluator: walks the prediction list in order and
pushes each winning prediction onto the `winners` accumulator. -/
def checkWinnings (result : RoundResult) (predictions : List Prediction) :
    List Prediction :=
  predictions.foldl
    (fun winners p => if predictionWins result p then winners ++ [p] else winners)
    []

/-- Rejection reasons for intents (the source signals these with toasts and an
early return before any `setGameState`). -/
inductive BetError where
  | bettingClosed
  | noActiveBets
  | timeExpired
deriving DecidableEq, Repr

/-- The `addPrediction` intent (lines 302–324): rejected outside the betting
phase or at zero time remaining; otherwise the active predictions of the same
category are filtered out and the new prediction appended. -/
def addPrediction (t : PredictionType) (s : GameState) :
    Except BetError GameState :=
  if s.currentRound.phase ≠ .betting ∨ s.currentRound.timeRemaining = 0 then
    .error .bettingClosed
  else
    let category := kindCategory t
    let multiplier := kindMultiplier t
    let filtered := s.activePredictions.filter fun p => decide (p.category ≠ category)
    .ok { s with activePredictions :=
            filtered ++ [{ type := t, category := category, multiplier := multiplier }] }

/-- The state after dispatching an add-prediction intent: the new state on
success, the old state unchanged on rejection. -/
def stateAfterAdd (t : PredictionType) (s : GameState) : GameState :=
  match addPrediction t s with
  | .ok s' => s'
  | .error _ => s

/-- The `placePredictions` intent (lines 327–349): rejected with no active
predictions or at zero time remaining; otherwise the active predictions are
copied into the locked set. -/
def placePredictions (s : GameState) : Except BetError GameState :=
  if s.activePredictions = [] then .error .noActiveBets
  else if s.currentRound.timeRemaining = 0 then .error .timeExpired
  else .ok { s with lockedPredictions := s.activePredictions }

/-- The state after dispatching a place-predictions intent. -/
def stateAfterPlace (s : GameState) : GameState :=
  match placePredictions s with
  | .ok s' => s'
  | .error _ => s

/-- The `clearPredictions` handler (lines 352–357): unconditionally empties the
active-prediction set — the handler itself performs no phase check. -/
def clearPredictions (s : GameState) : GameState :=
  { s with activePredictions := [] }

/-- The `disabled` condition of the CLEAR ALL button (line 830):
`activePredictions.length === 0 || phase !== "betting"`. -/
def clearDisabled (s : GameState) : Bool :=
  s.activePredictions.isEmpty || s.currentRound.phase != .betting

/-- The clear intent as dispatchable through the presentation layer: a click on
the CLEAR ALL button has no effect while the button is disabled. -/
def clearIntent (s : GameState) : GameState :=
  if clearDisabled s then s else clearPredictions s

/-- The `startNewRound` transition (lines 188–200): back to betting with both
duration and timeRemaining set to the currently selected duration, and both
prediction sets cleared. -/
def startNewRound (s : GameState) : GameState :=
  { s with
    currentRound :=
      { duration := s.selectedDuration
        timeRemaining := s.selectedDuration
        phase := .betting },
    activePredictions := [],
    lockedPredictions := [] }

/-- The `changeDuration` intent (lines 203–216): always records the new
selected duration; when the phase is betting it additionally resets both the
live duration and timeRemaining to the new value. -/
def changeDuration (d : Int) (s : GameState) : GameState :=
  { s with
    selectedDuration := d,
    currentRound :=
      if s.currentRound.phase = .betting then
        { s.currentRound with duration := d, timeRemaining := d }
      else s.currentRound }

/-- The `endRound` transition (lines 219–231), with the generated result passed
in explicitly: phase moves to showing-result, the result becomes `lastResult`
and is prepended to `history.slice(0, 9)`. -/
def endRound (result : RoundResult) (s : GameState) : GameState :=
  { s with
    currentRound := { s.currentRound with phase := .showingResult },
    lastResult := some result,
    history := result :: s.history.take 9 }

/-- One body of the 1-second interval of the timer effect (lines 260–285):
decrement, and on reaching ≤ 0 clamp the time to 0, snapshot the active
predictions into the locked set and move to resolving. -/
def tick (s : GameState) : GameState :=
  let newTime := s.currentRound.timeRemaining - 1
  if newTime ≤ 0 then
    { s with
      currentRound :=
        { s.currentRound with timeRemaining := 0, phase := .resolving },
      lockedPredictions := s.activePredictions }
  else
    { s with currentRound := { s.currentRound with timeRemaining := newTime } }

/-- One step of the machine: the countdown tick fires only while the betting
interval is installed (betting phase); the resolve timeout fires from
resolving, with an arbitrary generated result; the new-round timeout fires from
showing-result; and the four user intents may be dispatched at any time
(`clearPredictions` is modelled raw, without the button gating, which only
strengthens reachability). -/
inductive Step : GameState → GameState → Prop where
  | tick {s : GameState} (h : s.currentRound.phase = .betting) :
      Step s (tick s)
  | resolve {s : GameState} (r : RoundResult)
      (h : s.currentRound.phase = .resolving) :
      Step s (endRound r s)
  | newRound {s : GameState} (h : s.currentRound.phase = .showingResult) :
      Step s (startNewRound s)
  | addPred {s : GameState} (t : PredictionType) :
      Step s (stateAfterAdd t s)
  | place {s : GameState} :
      Step s (stateAfterPlace s)
  | clear {s : GameState} :
      Step s (clearPredictions s)
  | setDur {s : GameState} (d : Int) (h : allowedDuration d) :
      Step s (changeDuration d s)

/-- States reachable from the initial state under `Step`. -/
inductive Reachable : GameState → Prop where
  | init : Reachable initialState
  | step {s s' : GameState} : Reachable s → Step s s' → Reachable s'

/-- One entropy draw consumed by a `getRandomInt` call (lines 144–151):
either a `Uint32Array` cell from `crypto.getRandomValues` (a 32-bit value,
embedded as reduction mod 2^32), or the `Math.random()` sample of the
fallback path — a number in [0,1), embedded as an exact rational (the
idealized uniform sample; floating-point granularity is out of scope). -/
inductive EntropyDraw where
  | crypto (x : Nat)
  | mathRandom (u : Rat)

/-- The `getRandomInt` helper of `generateResult` (lines 144–151), covering
both branches: the crypto path reduces the 32-bit value modulo `max`; the
fallback path is `Math.floor(Math.random() * max)`. -/
def getRandomInt : EntropyDraw → Nat → Nat
  | .crypto x, max => x % 2 ^ 32 % max
  | .mathRandom u, max => (⌊u * (max : Rat)⌋).toNat

/-- A draw as the entropy sources deliver it: the crypto source produces any
32-bit value; `Math.random()` produces a sample in [0,1). -/
def validDraw : EntropyDraw → Prop
  | .crypto _ => True
  | .mathRandom u => 0 ≤ u ∧ u < 1

/-- The color table `["red", "green", "blue"]` of `generateResult`. -/
def COLORS : List GameColor := [.red, .green, .blue]

/-- The `generateResult` outcome (lines 142–163) as a function of the two
entropy draws it consumes, one per path taken by each `getRandomInt` call:
number from the first draw reduced to [0,10), color indexed by the second
draw reduced to [0,3). -/
def generateResult (ex ey : EntropyDraw) (timestamp duration : Int) : RoundResult :=
  { number := getRandomInt ex 10
    color := COLORS.getD (getRandomInt ey 3) .red
    timestamp := timestamp
    duration := duration }

/-- Exact distribution of the crypto path: how many of the 2^32 equally likely
32-bit entropy values produce outcome `r` under reduction modulo `m`. -/
def cryptoOutcomeCount (m r : Nat) : Nat :=
  (List.range (2 ^ 32)).countP fun x => getRandomInt (.crypto x) m == r

instance {ε α : Type} [DecidableEq ε] [DecidableEq α] : DecidableEq (Except ε α) :=
  fun x y =>
    match x, y with
    | .ok a, .ok b =>
        if h : a = b then isTrue (by rw [h]) else isFalse (by simp [h])
    | .error e, .error f =>
        if h : e = f then isTrue (by rw [h]) else isFalse (by simp [h])
    | .ok _, .error _ => isFalse (by simp)
    | .error _, .ok _ => isFalse (by simp)

/-- At most one prediction per category in a prediction list. -/
def atMostOnePerCategory (ps : List Prediction) : Prop :=
  ∀ c : Category, (ps.filter fun p => decide (p.category = c)).length ≤ 1

/-- The winning condition as the specification phrases it: a size bet "big"
with result number ≥ 5, a size bet "small" with result number < 5, a color bet
whose color equals the result color, or a number bet equal to the result
number. -/
def WinSpec (r : RoundResult) (p : Prediction) : Prop :=
  (p.category = .size ∧ p.type = .big ∧ 5 ≤ r.number) ∨
  (p.category = .size ∧ p.type = .small ∧ r.number < 5) ∨
  (p.category = .color ∧
    ((p.type = .red ∧ r.color = .red) ∨ (p.type = .green ∧ r.color = .green) ∨
      (p.type = .blue ∧ r.color = .blue))) ∨
  (p.category = .number ∧ p.type = .num r.number)

lemma checkWinnings_go (r : RoundResult) (ps acc : List Prediction) :
    ps.foldl
        (fun winners p => if predictionWins r p then winners ++ [p] else winners)
        acc
      = acc ++ ps.filter (predictionWins r) := by
  induction ps generalizing acc with
  | nil => simp
  | cons p rest ih =>
    simp only [List.foldl_cons, List.filter_cons]
    by_cases h : predictionWins r p
    · simp [h, ih]
    · simp [h, ih]

lemma predictionWins_iff (r : RoundResult) (p : Prediction) :
    predictionWins r p = true ↔ WinSpec r p := by
  obtain ⟨t, c, m⟩ := p
  cases c <;> cases t <;> cases hc : r.color <;>
    simp [predictionWins, WinSpec, typeMatchesColor, hc]

/-- C2: the win evaluator returns exactly the predictions satisfying the
spec's per-category winning condition; the winners are a sublist (hence a
subset) of the input; and `checkWinnings` is the pure function
`filter (predictionWins r)` of its two arguments, so identical inputs always
yield identical winners. -/
theorem checkWinnings_spec (r : RoundResult) (ps : List Prediction) :
    (∀ p : Prediction, p ∈ checkWinnings r ps ↔ p ∈ ps ∧ WinSpec r p) ∧
    (checkWinnings r ps).Sublist ps ∧
    checkWinnings r ps = ps.filter (predictionWins r) := by
  have hf : checkWinnings r ps = ps.filter (predictionWins r) :=
    checkWinnings_go r ps []
  refine ⟨fun p => ?_, ?_, hf⟩
  · rw [hf, List.mem_filter, predictionWins_iff]
  · rw [hf]
    exact List.filter_sublist ps

/-- C1: starting a new round re-enters the betting phase with the round's
duration and timeRemaining both set to the currently selected duration, and
both the active and the locked prediction sets cleared. -/
theorem startNewRound_spec (s : GameState) :
    (startNewRound s).currentRound.phase = .betting ∧
    (startNewRound s).currentRound.duration = s.selectedDuration ∧
    (startNewRound s).currentRound.timeRemaining = s.selectedDuration ∧
    (startNewRound s).activePredictions = [] ∧
    (startNewRound s).lockedPredictions = [] :=
  ⟨rfl, rfl, rfl, rfl, rfl⟩

/-- C9: the prediction catalog is the fixed total mapping — big and small are
size bets at 1.9, the three colors are color bets at 2.8, every exact number
is a number bet at 9.0; `kindCategory` and `kindMultiplier` are total Lean
functions, so the lookup has no failure mode. -/
theorem predictionCatalog_spec :
    kindCategory .big = .size ∧ kindMultiplier .big = 1.9 ∧
    kindCategory .small = .size ∧ kindMultiplier .small = 1.9 ∧
    kindCategory .red = .color ∧ kindMultiplier .red = 2.8 ∧
    kindCategory .green = .color ∧ kindMultiplier .green = 2.8 ∧
    kindCategory .blue = .color ∧ kindMultiplier .blue = 2.8 ∧
    ∀ n : Nat, kindCategory (.num n) = .number ∧ kindMultiplier (.num n) = 9.0 :=
  ⟨rfl, rfl, rfl, rfl, rfl, rfl, rfl, rfl, rfl, rfl, fun _ => ⟨rfl, rfl⟩⟩

lemma addPrediction_ok_active {t : PredictionType} {s s' : GameState}
    (h : addPrediction t s = .ok s') :
    s'.activePredictions =
      (s.activePredictions.filter fun p => decide (p.category ≠ kindCategory t)) ++
        [{ type := t, category := kindCategory t, multiplier := kindMultiplier t }] ∧
    s.currentRound.phase = .betting ∧ s.currentRound.timeRemaining ≠ 0 := by
  unfold addPrediction at h
  split at h
  · exact absurd h (by simp)
  · rename_i hcond
    push_neg at hcond
    simp only [Except.ok.injEq] at h
    subst h
    exact ⟨rfl, hcond.1, hcond.2⟩

/-- C3: a successful add-prediction replaces within its own category and never
duplicates — afterwards the new prediction's category holds exactly the new
prediction, every other category's predictions are kept verbatim, and the
at-most-one-per-category invariant is preserved. -/
theorem addPrediction_replace (t : PredictionType) (s s' : GameState)
    (h : addPrediction t s = .ok s') :
    (atMostOnePerCategory s.activePredictions →
      atMostOnePerCategory s'.activePredictions) ∧
    (s'.activePredictions.filter fun p => decide (p.category = kindCategory t)) =
      [{ type := t, category := kindCategory t, multiplier := kindMultiplier t }] ∧
    ∀ c : Category, c ≠ kindCategory t →
      (s'.activePredictions.filter fun p => decide (p.category = c)) =
        s.activePredictions.filter fun p => decide (p.category = c) := by
  obtain ⟨hact, -, -⟩ := addPrediction_ok_active h
  have hsame :
      ((s.activePredictions.filter fun p => decide (p.category ≠ kindCategory t)).filter
          fun p => decide (p.category = kindCategory t)) = [] := by
    simp only [List.filter_filter]
    rw [List.filter_eq_nil_iff]
    intro a _
    by_cases hc : a.category = kindCategory t <;> simp [hc]
  have hother : ∀ c : Category, c ≠ kindCategory t →
      ((s.activePredictions.filter fun p => decide (p.category ≠ kindCategory t)).filter
          fun p => decide (p.category = c)) =
        s.activePredictions.filter fun p => decide (p.category = c) := by
    intro c hc
    simp only [List.filter_filter]
    apply List.filter_congr
    intro x _
    by_cases hx : x.category = c
    · simp [hx, hc]
    · simp [hx]
  have h2 :
      (s'.activePredictions.filter fun p => decide (p.category = kindCategory t)) =
        [{ type := t, category := kindCategory t, multiplier := kindMultiplier t }] := by
    rw [hact, List.filter_append, hsame]
    simp
  have h3 : ∀ c : Category, c ≠ kindCategory t →
      (s'.activePredictions.filter fun p => decide (p.category = c)) =
        s.activePredictions.filter fun p => decide (p.category = c) := by
    intro c hc
    rw [hact, List.filter_append, hother c hc]
    simp [Ne.symm hc]
  refine ⟨fun hs c => ?_, h2, h3⟩
  by_cases hc : c = kindCategory t
  · subst hc
    rw [h2]
    simp
  · rw [h3 c hc]
    exact hs c

/-- C4: outside the betting phase, or at zero time remaining, the
add-prediction intent is rejected with the betting-closed signal and the state
is left unchanged. -/
theorem addPrediction_rejected (t : PredictionType) (s : GameState)
    (h : s.currentRound.phase ≠ .betting ∨ s.currentRound.timeRemaining = 0) :
    addPrediction t s = .error .bettingClosed ∧ stateAfterAdd t s = s := by
  have he : addPrediction t s = .error .bettingClosed := by
    unfold addPrediction
    rw [if_pos h]
  refine ⟨he, ?_⟩
  unfold stateAfterAdd
  rw [he]

/-- A state sitting in the resolving phase holding one active size bet, used
to exercise the rejection paths at a concrete input. -/
def resolvingState : GameState :=
  { initialState with
    currentRound := { duration := 10, timeRemaining := 0, phase := .resolving },
    activePredictions := [{ type := .big, category := .size, multiplier := 1.9 }] }

theorem addPrediction_rejected_witness :
    (resolvingState.currentRound.phase ≠ .betting ∨
      resolvingState.currentRound.timeRemaining = 0) ∧
    addPrediction .red resolvingState = .error .bettingClosed ∧
    stateAfterAdd .red resolvingState = resolvingState :=
  ⟨by decide, addPrediction_rejected .red resolvingState (by decide)⟩

/-- C6: a duration change is always accepted and recorded as the selected
duration; exactly when the phase is betting it also resets the live round's
duration and timeRemaining to the new value, and in any other phase the
current round (duration, timeRemaining and phase) is untouched. -/
theorem changeDuration_spec (d : Int) (s : GameState) (hd : allowedDuration d) :
    (changeDuration d s).selectedDuration = d ∧
    (changeDuration d s).currentRound.phase = s.currentRound.phase ∧
    (s.currentRound.phase = .betting →
      (changeDuration d s).currentRound.duration = d ∧
      (changeDuration d s).currentRound.timeRemaining = d) ∧
    (s.currentRound.phase ≠ .betting →
      (changeDuration d s).currentRound = s.currentRound) := by
  by_cases h : s.currentRound.phase = .betting
  · exact ⟨rfl, by simp [changeDuration, h], fun _ => ⟨by simp [changeDuration, h],
      by simp [changeDuration, h]⟩, fun hn => absurd h hn⟩
  · exact ⟨rfl, by simp [changeDuration, h], fun hb => absurd hb h,
      fun _ => by simp [changeDuration, h]⟩

theorem changeDuration_spec_witness :
    allowedDuration 20 ∧
    (changeDuration 20 initialState).selectedDuration = 20 ∧
    (changeDuration 20 initialState).currentRound.timeRemaining = 20 :=
  ⟨by decide, (changeDuration_spec 20 initialState (by decide)).1,
    ((changeDuration_spec 20 initialState (by decide)).2.2.1 rfl).2⟩

/-- Repeated round resolutions: fold `endRound` over a list of generated
results, oldest first. -/
def resolveAll (rs : List RoundResult) (s : GameState) : GameState :=
  rs.foldl (fun st r => endRound r st) s

lemma take_ten_cons (r : RoundResult) (l : List RoundResult) :
    (r :: l).take 10 = r :: l.take 9 := by
  rw [show (10 : Nat) = 9 + 1 from rfl, List.take_succ_cons]

lemma take_append_absorb {α : Type} (n : Nat) (A B : List α) :
    (A ++ B.take n).take n = (A ++ B).take n := by
  rw [List.take_append_eq_append_take, List.take_append_eq_append_take,
    List.take_take, Nat.min_eq_left (Nat.sub_le n A.length)]

lemma resolveAll_history_ne (rs : List RoundResult) :
    ∀ s : GameState, rs ≠ [] →
      (resolveAll rs s).history = (rs.reverse ++ s.history).take 10 := by
  induction rs with
  | nil => exact fun s h => absurd rfl h
  | cons r rest ih =>
    intro s _
    by_cases hr : rest = []
    · subst hr
      show (endRound r s).history = ([r].reverse ++ s.history).take 10
      rw [show (endRound r s).history = r :: s.history.take 9 from rfl]
      simp [take_ten_cons]
    · have hstep : resolveAll (r :: rest) s = resolveAll rest (endRound r s) := rfl
      rw [hstep, ih (endRound r s) hr,
        show (endRound r s).history = r :: s.history.take 9 from rfl,
        show (r : RoundResult) :: s.history.take 9 = ([r] ++ s.history).take 10 by
          simp [take_ten_cons],
        take_append_absorb, List.reverse_cons, List.append_assoc,
        List.singleton_append]

/-- C7: each resolution stores its result as `lastResult`, prepends it to the
history (most-recent first) and keeps at most 10 entries; consequently, from
any starting state, 11 consecutive resolutions leave exactly the 10 most
recent results, most-recent first. -/
theorem endRound_history_spec :
    (∀ (r : RoundResult) (s : GameState),
      (endRound r s).lastResult = some r ∧
      (endRound r s).history = r :: s.history.take 9 ∧
      (endRound r s).history.length ≤ 10) ∧
    ∀ (rs : List RoundResult) (s : GameState), rs.length = 11 →
      (resolveAll rs s).history = rs.reverse.take 10 := by
  constructor
  · intro r s
    refine ⟨rfl, rfl, ?_⟩
    rw [show (endRound r s).history = r :: s.history.take 9 from rfl]
    simp only [List.length_cons, List.length_take]
    omega
  · intro rs s hlen
    have hne : rs ≠ [] := by
      intro h
      rw [h] at hlen
      simp at hlen
    rw [resolveAll_history_ne rs s hne, List.take_append_eq_append_take,
      List.length_reverse, hlen]
    simp

/-- Eleven concrete round results used to exercise the history-cap law. -/
def elevenResults : List RoundResult :=
  (List.range 11).map fun i =>
    { number := i % 10, color := .red, timestamp := 0, duration := 10 }

theorem endRound_history_spec_witness :
    elevenResults.length = 11 ∧
    (resolveAll elevenResults initialState).history = elevenResults.reverse.take 10 :=
  ⟨by decide, endRound_history_spec.2 elevenResults initialState (by decide)⟩

/-- C5 counterexample: the `clearPredictions` handler performs no phase check —
applied to a resolving-phase state holding one active prediction it empties
the active-prediction set instead of rejecting, so the intent is not "rejected
with the state unchanged" at the level of the handler cited by the claim. -/
theorem clearPredictions_unguarded_counterexample :
    resolvingState.currentRound.phase = .resolving ∧
    clearPredictions resolvingState ≠ resolvingState ∧
    (clearPredictions resolvingState).activePredictions ≠
      resolvingState.activePredictions := by
  refine ⟨rfl, ?_, ?_⟩ <;> decide

/-- C5 amended: the betting-only restriction on clearing lives in the
presentation layer — the CLEAR ALL button is disabled outside the betting
phase (and when no active predictions exist) — so the clear intent as
dispatchable through the UI leaves the entire state unchanged whenever the
phase is resolving or showing-result. -/
theorem clearIntent_outside_betting (s : GameState)
    (h : s.currentRound.phase ≠ .betting) :
    clearIntent s = s := by
  have hb : clearDisabled s = true := by
    simp [clearDisabled, h]
  unfold clearIntent
  rw [if_pos hb]

theorem clearIntent_outside_betting_witness :
    resolvingState.currentRound.phase ≠ .betting ∧
    clearIntent resolvingState = resolvingState :=
  ⟨by decide, clearIntent_outside_betting resolvingState (by decide)⟩

lemma placePredictions_ok_round {s s' : GameState}
    (h : placePredictions s = .ok s') :
    s'.currentRound = s.currentRound := by
  unfold placePredictions at h
  split at h
  · exact absurd h (by simp)
  · split at h
    · exact absurd h (by simp)
    · simp only [Except.ok.injEq] at h
      subst h
      rfl

lemma addPrediction_ok_round {t : PredictionType} {s s' : GameState}
    (h : addPrediction t s = .ok s') :
    s'.currentRound = s.currentRound := by
  unfold addPrediction at h
  split at h
  · exact absurd h (by simp)
  · simp only [Except.ok.injEq] at h
    subst h
    rfl

lemma reachable_time_zero (s : GameState) (hr : Reachable s) :
    s.currentRound.phase ≠ .betting → s.currentRound.timeRemaining = 0 := by
  induction hr with
  | init => exact fun h => absurd rfl h
  | @step s1 s2 hr1 hs ih =>
    cases hs with
    | tick h =>
      intro hp
      by_cases hc : s1.currentRound.timeRemaining - 1 ≤ 0
      · simp [tick, hc]
      · simp [tick, hc] at hp
        exact absurd h hp
    | resolve r h =>
      intro _
      have h0 : s1.currentRound.timeRemaining = 0 := by
        refine ih ?_
        rw [h]
        decide
      exact h0
    | newRound h =>
      intro hp
      exact absurd rfl hp
    | addPred t =>
      intro hp
      unfold stateAfterAdd at hp ⊢
      cases hadd : addPrediction t s1 with
      | error e =>
        rw [hadd] at hp
        exact ih hp
      | ok s' =>
        rw [hadd] at hp
        have hp' : s'.currentRound.phase ≠ GamePhase.betting := hp
        have hcr := addPrediction_ok_round hadd
        have hph := (addPrediction_ok_active hadd).2.1
        rw [hcr] at hp'
        exact absurd hph hp'
    | place =>
      intro hp
      unfold stateAfterPlace at hp ⊢
      cases hpl : placePredictions s1 with
      | error e =>
        rw [hpl] at hp
        exact ih hp
      | ok s' =>
        rw [hpl] at hp
        have hp' : s'.currentRound.phase ≠ GamePhase.betting := hp
        have hcr := placePredictions_ok_round hpl
        rw [hcr] at hp'
        show s'.currentRound.timeRemaining = 0
        rw [hcr]
        exact ih hp'
    | clear =>
      intro hp
      exact ih hp
    | setDur d h =>
      intro hp
      by_cases hb : s1.currentRound.phase = .betting
      · simp [changeDuration, hb] at hp
      · simp only [changeDuration, if_neg hb] at hp ⊢
        exact ih hp

/-- C10: in every reachable state whose phase is resolving or showing-result
the clock reads zero, and consequently the confirm-bets intent is always
rejected there — its zero-time guard (together with the empty-set guard)
subsumes a phase check. -/
theorem reachable_nonbetting_time_zero (s : GameState) (hr : Reachable s)
    (hp : s.currentRound.phase ≠ .betting) :
    s.currentRound.timeRemaining = 0 ∧
    ∃ e : BetError, placePredictions s = .error e := by
  have h0 := reachable_time_zero s hr hp
  refine ⟨h0, ?_⟩
  unfold placePredictions
  by_cases ha : s.activePredictions = []
  · exact ⟨.noActiveBets, by rw [if_pos ha]⟩
  · exact ⟨.timeExpired, by rw [if_neg ha, if_pos h0]⟩

/-- The state of the machine after the ten countdown ticks of the first
round: the clock has run out and the phase has moved to resolving. -/
def tenTicks : GameState :=
  tick (tick (tick (tick (tick (tick (tick (tick (tick (tick initialState)))))))))

theorem reachable_nonbetting_time_zero_witness :
    tenTicks.currentRound.phase ≠ .betting ∧
    tenTicks.currentRound.timeRemaining = 0 ∧
    ∃ e : BetError, placePredictions tenTicks = .error e := by
  have h0 : Reachable initialState := Reachable.init
  have h1 : Reachable (tick initialState) := h0.step (Step.tick (by decide))
  have h2 : Reachable (tick (tick initialState)) := h1.step (Step.tick (by decide))
  have h3 : Reachable (tick (tick (tick initialState))) :=
    h2.step (Step.tick (by decide))
  have h4 : Reachable (tick (tick (tick (tick initialState)))) :=
    h3.step (Step.tick (by decide))
  have h5 : Reachable (tick (tick (tick (tick (tick initialState))))) :=
    h4.step (Step.tick (by decide))
  have h6 : Reachable (tick (tick (tick (tick (tick (tick initialState)))))) :=
    h5.step (Step.tick (by decide))
  have h7 : Reachable (tick (tick (tick (tick (tick (tick (tick initialState))))))) :=
    h6.step (Step.tick (by decide))
  have h8 : Reachable (tick (tick (tick (tick (tick (tick (tick (tick
      initialState)))))))) :=
    h7.step (Step.tick (by decide))
  have h9 : Reachable (tick (tick (tick (tick (tick (tick (tick (tick (tick
      initialState))))))))) :=
    h8.step (Step.tick (by decide))
  have h10 : Reachable tenTicks := h9.step (Step.tick (by decide))
  exact ⟨by decide, reachable_nonbetting_time_zero tenTicks h10 (by decide)⟩

lemma count_range_eq (K r : Nat) :
    (List.range K).countP (fun x => x == r) = if r < K then 1 else 0 := by
  induction K with
  | zero => simp
  | succ n ih =>
    rw [List.range_succ, List.countP_append, ih]
    simp only [List.countP_cons, List.countP_nil, beq_iff_eq, Nat.zero_add]
    split_ifs <;> omega

lemma countMod_mul (m a r : Nat) :
    (List.range (m * a)).countP (fun x => x % m == r) = a * if r < m then 1 else 0 := by
  induction a with
  | zero => simp
  | succ n ih =>
    rw [Nat.mul_succ, List.range_add, List.countP_append, ih, List.countP_map]
    have hc : (List.range m).countP ((fun x => x % m == r) ∘ (m * n + ·)) =
        (List.range m).countP (fun x => x == r) := by
      apply List.countP_congr
      intro x hx
      rw [List.mem_range] at hx
      show ((m * n + x) % m == r) = true ↔ (x == r) = true
      rw [Nat.mul_add_mod, Nat.mod_eq_of_lt hx]
    rw [hc, count_range_eq]
    by_cases hr : r < m
    · rw [if_pos hr]
      ring
    · rw [if_neg hr]
      ring

lemma countMod_split (m a s0 r : Nat) (hr : r < m) (hs : s0 ≤ m) :
    (List.range (m * a + s0)).countP (fun x => x % m == r) =
      a + if r < s0 then 1 else 0 := by
  rw [List.range_add, List.countP_append, countMod_mul, if_pos hr, Nat.mul_one,
    List.countP_map]
  congr 1
  have hc : (List.range s0).countP ((fun x => x % m == r) ∘ (m * a + ·)) =
      (List.range s0).countP (fun x => x == r) := by
    apply List.countP_congr
    intro x hx
    rw [List.mem_range] at hx
    show ((m * a + x) % m == r) = true ↔ (x == r) = true
    rw [Nat.mul_add_mod, Nat.mod_eq_of_lt (Nat.lt_of_lt_of_le hx hs)]
  rw [hc, count_range_eq]

lemma cryptoOutcomeCount_eq_countMod (m r : Nat) :
    cryptoOutcomeCount m r = (List.range (2 ^ 32)).countP (fun x => x % m == r) := by
  unfold cryptoOutcomeCount
  apply List.countP_congr
  intro x hx
  rw [List.mem_range] at hx
  show (x % 2 ^ 32 % m == r) = true ↔ (x % m == r) = true
  rw [Nat.mod_eq_of_lt hx]

lemma cryptoOutcomeCount_ten (r : Nat) (hr : r < 10) :
    cryptoOutcomeCount 10 r = 429496729 + if r < 6 then 1 else 0 := by
  rw [cryptoOutcomeCount_eq_countMod,
    show (2 ^ 32 : Nat) = 10 * 429496729 + 6 by norm_num,
    countMod_split 10 429496729 6 r hr (by norm_num)]

lemma cryptoOutcomeCount_three (r : Nat) (hr : r < 3) :
    cryptoOutcomeCount 3 r = 1431655765 + if r < 1 then 1 else 0 := by
  rw [cryptoOutcomeCount_eq_countMod,
    show (2 ^ 32 : Nat) = 3 * 1431655765 + 1 by norm_num,
    countMod_split 3 1431655765 1 r hr (by norm_num)]

/-- C8 counterexample: the crypto path's reduction of a 32-bit unsigned
integer modulo 10 is not uniform over [0,9] — since 2^32 is not divisible by
10, outcome 0 arises from 429496730 of the 2^32 equally likely draws while
outcome 9 arises from only 429496729, so the two outcomes have different
probabilities. -/
theorem cryptoPath_not_uniform :
    cryptoOutcomeCount 10 0 = 429496730 ∧
    cryptoOutcomeCount 10 9 = 429496729 ∧
    cryptoOutcomeCount 10 0 ≠ cryptoOutcomeCount 10 9 := by
  have h0 := cryptoOutcomeCount_ten 0 (by norm_num)
  have h9 := cryptoOutcomeCount_ten 9 (by norm_num)
  norm_num at h0 h9
  exact ⟨h0, h9, by omega⟩

lemma color_getD_mem (i : Nat) :
    COLORS.getD i .red = .red ∨ COLORS.getD i .red = .green ∨
      COLORS.getD i .red = .blue := by
  match i with
  | 0 => exact Or.inl rfl
  | 1 => exact Or.inr (Or.inl rfl)
  | 2 => exact Or.inr (Or.inr rfl)
  | n + 3 => exact Or.inl rfl

lemma getRandomInt_lt (e : EntropyDraw) (max : Nat) (hmax : 0 < max)
    (he : validDraw e) : getRandomInt e max < max := by
  cases e with
  | crypto x => exact Nat.mod_lt _ hmax
  | mathRandom u =>
    obtain ⟨h0, h1⟩ := he
    show (⌊u * (max : Rat)⌋).toNat < max
    have hmaxQ : (0 : Rat) < (max : Rat) := by exact_mod_cast hmax
    have hlt : ⌊u * (max : Rat)⌋ < (max : Int) := by
      rw [Int.floor_lt]
      push_cast
      nlinarith
    omega

lemma mathRandom_uniform (u : Rat) (hu0 : 0 ≤ u) (max r : Nat) (hmax : 0 < max) :
    getRandomInt (.mathRandom u) max = r ↔
      (r : Rat) / (max : Rat) ≤ u ∧ u < ((r : Rat) + 1) / (max : Rat) := by
  show (⌊u * (max : Rat)⌋).toNat = r ↔ _
  have hmaxQ : (0 : Rat) < (max : Rat) := by exact_mod_cast hmax
  have hfl : 0 ≤ ⌊u * (max : Rat)⌋ :=
    Int.floor_nonneg.mpr (mul_nonneg hu0 (le_of_lt hmaxQ))
  rw [show ((⌊u * (max : Rat)⌋).toNat = r) ↔ (⌊u * (max : Rat)⌋ = (r : Int)) by omega,
    Int.floor_eq_iff, div_le_iff₀ hmaxQ, lt_div_iff₀ hmaxQ]
  push_cast
  constructor
  · exact fun h => ⟨h.1, h.2⟩
  · exact fun h => ⟨h.1, h.2⟩

/-- C8 amended: on both entropy paths every generated result has its number
in [0,9] and its color among the three colors; the fallback path is exactly
uniform in the idealized model — the `Math.random()` samples producing
outcome `r` are precisely the interval [r/max, (r+1)/max), of the same
length 1/max for every outcome — but the crypto path is only near-uniform:
over the 2^32 equally likely 32-bit draws, number outcomes below 6 occur
429496730 times against 429496729 for the rest, and color index 0 occurs
1431655766 times against 1431655765 for indices 1 and 2 — a one-draw modulo
bias on each reduction. -/
theorem generateResult_range_and_bias (ex ey : EntropyDraw) (ts d : Int)
    (hx : validDraw ex) (hy : validDraw ey) (u : Rat) (hu : 0 ≤ u)
    (r r3 : Nat) (hr : r < 10) (hr3 : r3 < 3) :
    (generateResult ex ey ts d).number < 10 ∧
    ((generateResult ex ey ts d).color = .red ∨
      (generateResult ex ey ts d).color = .green ∨
      (generateResult ex ey ts d).color = .blue) ∧
    (getRandomInt (.mathRandom u) 10 = r ↔
      (r : Rat) / (10 : Rat) ≤ u ∧ u < ((r : Rat) + 1) / (10 : Rat)) ∧
    cryptoOutcomeCount 10 r = (if r < 6 then 429496730 else 429496729) ∧
    cryptoOutcomeCount 3 r3 = (if r3 = 0 then 1431655766 else 1431655765) := by
  refine ⟨getRandomInt_lt ex 10 (by norm_num) hx, color_getD_mem _, ?_, ?_, ?_⟩
  · have h := mathRandom_uniform u hu 10 r (by norm_num)
    rw [h]
    norm_num
  · rw [cryptoOutcomeCount_ten r hr]
    by_cases h : r < 6
    · rw [if_pos h, if_pos h]
    · rw [if_neg h, if_neg h]
  · rw [cryptoOutcomeCount_three r3 hr3]
    by_cases h : r3 = 0
    · rw [if_pos (by omega), if_pos h]
    · rw [if_neg (by omega), if_neg h]

theorem generateResult_range_and_bias_witness :
    validDraw (.crypto 7) ∧ validDraw (.mathRandom (1 / 2)) ∧
    (0 : Rat) ≤ 1 / 2 ∧ (5 : Nat) < 10 ∧ (0 : Nat) < 3 ∧
    ((generateResult (.crypto 7) (.mathRandom (1 / 2)) 0 10).number < 10 ∧
      ((generateResult (.crypto 7) (.mathRandom (1 / 2)) 0 10).color = .red ∨
        (generateResult (.crypto 7) (.mathRandom (1 / 2)) 0 10).color = .green ∨
        (generateResult (.crypto 7) (.mathRandom (1 / 2)) 0 10).color = .blue) ∧
      (getRandomInt (.mathRandom (1 / 2)) 10 = 5 ↔
        ((5 : Nat) : Rat) / (10 : Rat) ≤ 1 / 2 ∧
          (1 / 2 : Rat) < (((5 : Nat) : Rat) + 1) / (10 : Rat)) ∧
      cryptoOutcomeCount 10 5 = (if (5 : Nat) < 6 then 429496730 else 429496729) ∧
      cryptoOutcomeCount 3 0 = (if (0 : Nat) = 0 then 1431655766 else 1431655765)) :=
  ⟨trivial, ⟨by norm_num, by norm_num⟩, by norm_num, by norm_num, by norm_num,
    generateResult_range_and_bias (.crypto 7) (.mathRandom (1 / 2)) 0 10 trivial
      ⟨by norm_num, by norm_num⟩ (1 / 2) (by norm_num) 5 0 (by norm_num) (by norm_num)⟩

/-- A betting-phase state already holding an active big bet, used to exercise
the insert-replace law at a concrete input. -/
def bettingStateWithBig : GameState :=
  { initialState with
    activePredictions := [{ type := .big, category := .size, multiplier := 1.9 }] }

/-- The state reached from `bettingStateWithBig` by adding a small bet: the
big bet has been replaced within the size category. -/
def afterSmall : GameState :=
  { initialState with
    activePredictions := [{ type := .small, category := .size, multiplier := 1.9 }] }

theorem addPrediction_replace_witness :
    addPrediction .small bettingStateWithBig = .ok afterSmall ∧
    (afterSmall.activePredictions.filter fun p =>
        decide (p.category = kindCategory .small)) =
      [{ type := .small, category := kindCategory .small,
         multiplier := kindMultiplier .small }] :=
  ⟨rfl, (addPrediction_replace .small bettingStateWithBig afterSmall rfl).2.1⟩
